import Mathlib

/-
  Verification of the N3310 Nokia-3310 LCD driver (n3310.c) against its
  natural-language specification.

  The driver is shallowly embedded: the framebuffer cache `LcdCache` (a C
  array of 504 bytes indexed by `int`) is modelled as a total function
  `Int → Nat` whose cells hold byte values, the watermarks and the cursor
  (C `int`s) as `Int`, and every operation as a pure function on an
  explicit `LcdState`.  The glyph table `FontLookup` lives in flash and is
  not part of the core sources, so it is passed as a parameter; reading it
  through `pgm_read_byte` yields a byte, modelled by reducing mod 256.
  The standard-controller branch of `LcdUpdate` (the `#else` of
  `CHINA_LCD`) is the one modelled; transmission is reified as the list of
  (byte, command/data) pairs handed to `LcdSend`.
-/

set_option maxRecDepth 4000

namespace N3310

def LCD_X_RES : Nat := 84
def LCD_Y_RES : Nat := 48
def LCD_CACHE_SIZE : Nat := 504

inductive LcdCmdData where
  | LCD_CMD
  | LCD_DATA
deriving DecidableEq, Repr

export LcdCmdData (LCD_CMD LCD_DATA)

inductive LcdFontSize where
  | FONT_1X
  | FONT_2X
deriving DecidableEq, Repr

export LcdFontSize (FONT_1X FONT_2X)

inductive LcdPixelMode where
  | PIXEL_OFF
  | PIXEL_ON
  | PIXEL_XOR
deriving DecidableEq, Repr

export LcdPixelMode (PIXEL_OFF PIXEL_ON PIXEL_XOR)

/-- Result codes of the driver (n3310.h): `OK` is 0, the others nonzero,
so a C truthiness test `if (response)` reads as `response ≠ OK`. -/
inductive LcdResp where
  | OK
  | OK_WITH_WRAP
  | OUT_OF_BORDER
deriving DecidableEq, Repr

export LcdResp (OK OK_WITH_WRAP OUT_OF_BORDER)

/-- The module-level mutable state of the driver: the 504-byte cache
`LcdCache` (modelled as a total function on `Int`, since the C code indexes
it with `int` values; cells hold bytes), the two dirty-range watermarks,
the font cursor `LcdCacheIdx`, and the change flag `UpdateLcd`. -/
structure LcdState where
  LcdCache : Int → Nat
  LoWaterMark : Int
  HiWaterMark : Int
  LcdCacheIdx : Int
  UpdateLcd : Bool

/-- Store one byte into the cache: `LcdCache[i] = v`. -/
def writeCell (c : Int → Nat) (i : Int) (v : Nat) : Int → Nat :=
  fun j => if j = i then v else c j

/-- LcdClear: zero every cache byte, set the dirty range to the whole
cache, raise the change flag. -/
def LcdClear (s : LcdState) : LcdState :=
  { s with LcdCache := fun _ => 0
           LoWaterMark := 0
           HiWaterMark := LCD_CACHE_SIZE - 1
           UpdateLcd := true }

/-- The range-clamping step at the head of `LcdUpdate`: force both
watermarks into `[0, LCD_CACHE_SIZE - 1]`. -/
def clampWaterMarks (s : LcdState) : LcdState :=
  { s with
    LoWaterMark :=
      if s.LoWaterMark < 0 then 0
      else if s.LoWaterMark ≥ (LCD_CACHE_SIZE : Int) then (LCD_CACHE_SIZE : Int) - 1
      else s.LoWaterMark
    HiWaterMark :=
      if s.HiWaterMark < 0 then 0
      else if s.HiWaterMark ≥ (LCD_CACHE_SIZE : Int) then (LCD_CACHE_SIZE : Int) - 1
      else s.HiWaterMark }

/-- LcdUpdate, standard-controller branch (the `#else` of `CHINA_LCD`):
clamp the watermarks, send the two addressing commands derived from
`LoWaterMark`, stream the cache bytes `LoWaterMark..HiWaterMark` as data,
then reset the dirty range to the empty sentinel and clear the flag.
The returned list is the sequence of `LcdSend` calls. -/
def LcdUpdate (s : LcdState) : List (Nat × LcdCmdData) × LcdState :=
  let s := clampWaterMarks s
  let lo := s.LoWaterMark
  let hi := s.HiWaterMark
  let sends :=
    [(0x80 ||| (lo % 84).toNat, LCD_CMD), (0x40 ||| (lo / 84).toNat, LCD_CMD)]
      ++ (List.range (hi + 1 - lo).toNat).map
          (fun (j : Nat) => (s.LcdCache (lo + (j : Int)), LCD_DATA))
  (sends,
   { s with LoWaterMark := (LCD_CACHE_SIZE : Int) - 1
            HiWaterMark := 0
            UpdateLcd := false })

/-- The bit manipulation of `LcdPixel`: AND-NOT / OR / XOR of the bit at
`offset` into the byte `data`.  `~(0x01 << offset)` acts on a byte-valued
cell, so it is written as the 8-bit complement `0xFF ^^^ (1 <<< offset)`. -/
def pixWrite (mode : LcdPixelMode) (data offset : Nat) : Nat :=
  match mode with
  | PIXEL_OFF => data &&& (0xFF ^^^ (1 <<< offset))
  | PIXEL_ON  => data ||| (1 <<< offset)
  | PIXEL_XOR => data ^^^ (1 <<< offset)

/-- LcdPixel: guard the coordinates, compute the cache index and the bit
offset, apply the mode to the byte, write it back and absorb the index
into the watermarks.  The watermark updates read only their own field, so
they are written as simultaneous field updates. -/
def LcdPixel (x y : Nat) (mode : LcdPixelMode) (s : LcdState) : LcdResp × LcdState :=
  if x ≥ LCD_X_RES ∨ y ≥ LCD_Y_RES then (OUT_OF_BORDER, s)
  else
    let index : Int := ((y / 8) * 84 + x : Nat)
    let offset : Nat := y - (y / 8) * 8
    let data := pixWrite mode (s.LcdCache index) offset
    (OK,
     { s with
       LcdCache := writeCell s.LcdCache index data
       LoWaterMark := if index < s.LoWaterMark then index else s.LoWaterMark
       HiWaterMark := if index > s.HiWaterMark then index else s.HiWaterMark })

/-- The cache index LcdPixel writes for an in-bounds (x, y). -/
def pixIdx (x y : Nat) : Nat := y / 8 * 84 + x

/-- LcdGotoXYFont: cursor placement at character-cell granularity. -/
def LcdGotoXYFont (x y : Nat) (s : LcdState) : LcdResp × LcdState :=
  if x > 13 ∨ y > 5 then (OUT_OF_BORDER, s)
  else (OK, { s with LcdCacheIdx := (x * 6 + y * 84 : Nat) })

/-- Reading the flash glyph table: `pgm_read_byte(&FontLookup[ch][i])`
returns a `byte`, so the supplied table function is reduced mod 256. -/
def fontByte (font : Nat → Nat → Nat) (ch i : Nat) : Nat := font ch i % 256

/-- The code-page remap of `LcdChr`: printable ASCII maps down by 32,
CP1251 `0xC0..` maps down by 96, everything else to the blank glyph 95. -/
def remapChar (ch : Nat) : Nat :=
  if 0x20 ≤ ch ∧ ch ≤ 0x7F then ch - 32
  else if 0xC0 ≤ ch then ch - 96
  else 95

/-- The tail shared by both font sizes in `LcdChr`: absorb the cursor into
the high watermark, write the zero inter-character spacing byte at the
cursor, then either wrap the cursor to 0 (reporting `OK_WITH_WRAP`) or
advance it by one. -/
def lcdChrTail (s : LcdState) : LcdResp × LcdState :=
  let s :=
    { s with HiWaterMark :=
        if s.LcdCacheIdx > s.HiWaterMark then s.LcdCacheIdx else s.HiWaterMark }
  let s := { s with LcdCache := writeCell s.LcdCache s.LcdCacheIdx 0 }
  if s.LcdCacheIdx = (LCD_CACHE_SIZE : Int) - 1 then
    (OK_WITH_WRAP, { s with LcdCacheIdx := 0 })
  else
    (OK, { s with LcdCacheIdx := s.LcdCacheIdx + 1 })

/-- One column of the FONT_2X doubling loop: `c` is the shifted glyph
byte; the low nibble expands (via the `*3,*6,*12,*24` weights) into `b1`
written twice at the running index, the high nibble into `b2` written at
offsets `+82`/`+83` from the advanced index (i.e. `+84`/`+85` from the
original), and the running index advances by 2. -/
def chr2xStep (font : Nat → Nat → Nat) (ch : Nat) (p : (Int → Nat) × Int) (i : Nat) :
    (Int → Nat) × Int :=
  let c := (fontByte font ch i <<< 1) % 256
  let b1 := (c &&& 0x01) * 3 ||| (c &&& 0x02) * 6 ||| (c &&& 0x04) * 12 ||| (c &&& 0x08) * 24
  let c := c >>> 4
  let b2 := (c &&& 0x01) * 3 ||| (c &&& 0x02) * 6 ||| (c &&& 0x04) * 12 ||| (c &&& 0x08) * 24
  let cache := writeCell p.1 p.2 b1
  let cache := writeCell cache (p.2 + 1) b1
  let cache := writeCell cache (p.2 + 2 + 82) b2
  let cache := writeCell cache (p.2 + 2 + 83) b2
  (cache, p.2 + 2)

/-- LcdChr: lower the low watermark to the cursor, remap the character,
render it at the cursor in the requested size, then run the shared tail.
The FONT_2X branch first lowers the low watermark to `cursor - 84` and
only then rejects a negative row with `OUT_OF_BORDER`. -/
def LcdChr (font : Nat → Nat → Nat) (size : LcdFontSize) (ch : Nat) (s : LcdState) :
    LcdResp × LcdState :=
  let s :=
    { s with LoWaterMark :=
        if s.LcdCacheIdx < s.LoWaterMark then s.LcdCacheIdx else s.LoWaterMark }
  let c := remapChar ch
  match size with
  | FONT_1X =>
      let s := (List.range 5).foldl
        (fun s i =>
          { s with
            LcdCache := writeCell s.LcdCache s.LcdCacheIdx ((fontByte font c i <<< 1) % 256)
            LcdCacheIdx := s.LcdCacheIdx + 1 }) s
      lcdChrTail s
  | FONT_2X =>
      let tmpIdx := s.LcdCacheIdx - 84
      let s :=
        { s with LoWaterMark :=
            if tmpIdx < s.LoWaterMark then tmpIdx else s.LoWaterMark }
      if tmpIdx < 0 then (OUT_OF_BORDER, s)
      else
        let p := (List.range 5).foldl (chr2xStep font c) (s.LcdCache, tmpIdx)
        let s := { s with
          LcdCache := p.1
          LcdCacheIdx := (s.LcdCacheIdx + 11) % (LCD_CACHE_SIZE : Int) }
        lcdChrTail s

/-- Conversion of an `int` expression to the `byte` it becomes when passed
as a `byte` argument: reduce mod 256. -/
def byteOf (v : Int) : Nat := (v % 256).toNat

/-- Wrap-around of an `int` expression stored back into a `signed char`
variable (gcc semantics): reduce into `[-128, 127]`. -/
def sc (v : Int) : Int := (v + 128) % 256 - 128

/-- The 8-way symmetric plotting loop of `LcdCircle`.  `xc`, `yc`, `p` are
`signed char` locals, so every store wraps through `sc`; the pixel
arguments are `int` sums narrowed to `byte` at the call.  The loop body
never returns early (the `LcdPixel` responses are discarded).  Recursion
is on an explicit fuel; the radii exercised by the claims finish well
within it. -/
def circleLoop (x y : Nat) (mode : LcdPixelMode) :
    Nat → Int → Int → Int → LcdState → LcdState
  | 0, _, _, _, s => s
  | fuel + 1, xc, yc, p, s =>
    if xc ≤ yc then
      let s := (LcdPixel (byteOf (x + xc)) (byteOf (y + yc)) mode s).2
      let s := (LcdPixel (byteOf (x + xc)) (byteOf (y - yc)) mode s).2
      let s := (LcdPixel (byteOf (x - xc)) (byteOf (y + yc)) mode s).2
      let s := (LcdPixel (byteOf (x - xc)) (byteOf (y - yc)) mode s).2
      let s := (LcdPixel (byteOf (x + yc)) (byteOf (y + xc)) mode s).2
      let s := (LcdPixel (byteOf (x + yc)) (byteOf (y - xc)) mode s).2
      let s := (LcdPixel (byteOf (x - yc)) (byteOf (y + xc)) mode s).2
      let s := (LcdPixel (byteOf (x - yc)) (byteOf (y - xc)) mode s).2
      if p < 0 then
        circleLoop x y mode fuel (sc (xc + 1)) yc (sc (p + 4 * xc + 6)) s
      else
        circleLoop x y mode fuel (sc (xc + 1)) (sc (yc - 1)) (sc (p + 4 * (xc - yc) + 10)) s
    else s

/-- LcdCircle: reject an off-display center, then run the midpoint loop
from `xc = 0`, `yc = radius`, `p = 3 - 2*radius` (both stored into signed
chars), set the change flag and return `OK`. -/
def LcdCircle (x y radius : Nat) (mode : LcdPixelMode) (s : LcdState) :
    LcdResp × LcdState :=
  if x ≥ LCD_X_RES ∨ y ≥ LCD_Y_RES then (OUT_OF_BORDER, s)
  else
    let s := circleLoop x y mode 256 0 (sc radius) (sc (3 - 2 * (radius : Int))) s
    (OK, { s with UpdateLcd := true })

/-- A `byte` variable stepped by an `int` increment: wraps mod 256. -/
def byteAdd (b : Nat) (d : Int) : Nat := ((b + d) % 256).toNat

/-- The x-dominant Bresenham loop of `LcdLine`: while `x1 != x2`, step the
minor axis when the fraction term is nonnegative, step `x1` by `stepx`
(byte arithmetic), accumulate the fraction, plot, and bubble up the first
non-`OK` response.  `some r` is an early return carrying `r`, `none` a
normal loop exit.  `x1` steps by ±1 through the 256 byte values each
iteration, so it reaches `x2` in at most 255 iterations and the fuel of
256 used below is never exhausted. -/
def lineLoopX (x2 : Nat) (stepx stepy dx dy : Int) (mode : LcdPixelMode) :
    Nat → Nat → Nat → Int → LcdState → Option LcdResp × LcdState
  | 0, _, _, _, s => (some OUT_OF_BORDER, s)
  | fuel + 1, x1, y1, fraction, s =>
    if x1 ≠ x2 then
      let yf := if fraction ≥ 0 then (byteAdd y1 stepy, fraction - dx) else (y1, fraction)
      let x1 := byteAdd x1 stepx
      let fraction := yf.2 + dy
      let r := LcdPixel x1 yf.1 mode s
      if r.1 ≠ OK then (some r.1, r.2)
      else lineLoopX x2 stepx stepy dx dy mode fuel x1 yf.1 fraction r.2
    else (none, s)

/-- The y-dominant Bresenham loop of `LcdLine`, symmetric to `lineLoopX`. -/
def lineLoopY (y2 : Nat) (stepx stepy dx dy : Int) (mode : LcdPixelMode) :
    Nat → Nat → Nat → Int → LcdState → Option LcdResp × LcdState
  | 0, _, _, _, s => (some OUT_OF_BORDER, s)
  | fuel + 1, x1, y1, fraction, s =>
    if y1 ≠ y2 then
      let xf := if fraction ≥ 0 then (byteAdd x1 stepx, fraction - dy) else (x1, fraction)
      let y1 := byteAdd y1 stepy
      let fraction := xf.2 + dx
      let r := LcdPixel xf.1 y1 mode s
      if r.1 ≠ OK then (some r.1, r.2)
      else lineLoopY y2 stepx stepy dx dy mode fuel xf.1 y1 fraction r.2
    else (none, s)

/-- LcdLine: doubled-delta integer Bresenham.  Plot the first point
(returning its response if it fails), then run the dominant-axis loop;
on normal exit set the change flag and return `OK`. -/
def LcdLine (x1 y1 x2 y2 : Nat) (mode : LcdPixelMode) (s : LcdState) :
    LcdResp × LcdState :=
  let dy0 : Int := (y2 : Int) - y1
  let dx0 : Int := (x2 : Int) - x1
  let dp := if dy0 < 0 then (-dy0, (-1 : Int)) else (dy0, 1)
  let dq := if dx0 < 0 then (-dx0, (-1 : Int)) else (dx0, 1)
  let dy := 2 * dp.1
  let stepy := dp.2
  let dx := 2 * dq.1
  let stepx := dq.2
  let r := LcdPixel x1 y1 mode s
  if r.1 ≠ OK then r
  else
    let res :=
      if dx > dy then lineLoopX x2 stepx stepy dx dy mode 256 x1 y1 (dy - dx / 2) r.2
      else lineLoopY y2 stepx stepy dx dy mode 256 x1 y1 (dx - dy / 2) r.2
    match res with
    | (some rr, s) => (rr, s)
    | (none, s) => (OK, { s with UpdateLcd := true })

/-- The inner (x) loop of `LcdSingleBar`: plot `(x, y)` for
`x = baseX, baseX+1, ...` while `x < baseX + width`, bubbling up the first
non-`OK` response.  `tmpIdxX` is a byte in C, but a plotted `x ≥ 84` fails
and returns at once, so the index never reaches the wrap at 256 and plain
`Nat` arithmetic is exact. -/
def barInner (baseX width y : Nat) (mode : LcdPixelMode) (x : Nat) (s : LcdState) :
    Option LcdResp × LcdState :=
  if x < baseX + width then
    match LcdPixel x y mode s with
    | (r, s1) => if r ≠ OK then (some r, s1) else barInner baseX width y mode (x + 1) s1
  else (none, s)
termination_by baseX + width - x

/-- The outer (y) loop of `LcdSingleBar`: rows `tmp..baseY`.  `baseY < 48`
after the guard, so the byte counter never wraps. -/
def barOuter (baseX width baseY : Nat) (mode : LcdPixelMode) (y : Nat) (s : LcdState) :
    Option LcdResp × LcdState :=
  if y ≤ baseY then
    match barInner baseX width y mode baseX s with
    | (some r, s) => (some r, s)
    | (none, s) => barOuter baseX width baseY mode (y + 1) s
  else (none, s)
termination_by baseY + 1 - y

/-- LcdSingleBar: guard the anchor, clamp the top row so the bar never
addresses rows above 0, fill row by row, set the change flag on normal
completion. -/
def LcdSingleBar (baseX baseY height width : Nat) (mode : LcdPixelMode) (s : LcdState) :
    LcdResp × LcdState :=
  if baseX ≥ LCD_X_RES ∨ baseY ≥ LCD_Y_RES then (OUT_OF_BORDER, s)
  else
    let tmp := if height > baseY then 0 else baseY - height + 1
    match barOuter baseX width baseY mode tmp s with
    | (some r, s) => (r, s)
    | (none, s) => (OK, { s with UpdateLcd := true })

/-- The bar loop of `LcdBars`.  `emptySpace`, `barX`, `barY` are the
configuration constants `EMPTY_SPACE_BARS`, `BAR_X`, `BAR_Y` of n3310.h
(the header is not among the sources), left as parameters; `data` is the
byte array of bar values.  Note the border check tests the column of the
previous iteration, exactly as the source does, and both the computed
column and the computed height narrow to bytes. -/
def barsLoop (data : Nat → Nat) (numbBars width multiplier emptySpace barX barY : Nat)
    (b : Nat) (tmpIdx : Nat) (s : LcdState) : Option LcdResp × LcdState :=
  if b < numbBars then
    if tmpIdx > LCD_X_RES - 1 then (some OUT_OF_BORDER, s)
    else
      match LcdSingleBar (((width + emptySpace) * b + barX) % 256) barY
          ((data b % 256) * multiplier % 256) width PIXEL_ON s with
      | (r, s1) =>
        if r = OUT_OF_BORDER then (some OUT_OF_BORDER, s1)
        else barsLoop data numbBars width multiplier emptySpace barX barY (b + 1)
              (((width + emptySpace) * b + barX) % 256) s1
  else (none, s)
termination_by numbBars - b

/-- LcdBars: lay the bars out left to right, then set the change flag. -/
def LcdBars (data : Nat → Nat) (numbBars width multiplier emptySpace barX barY : Nat)
    (s : LcdState) : LcdResp × LcdState :=
  match barsLoop data numbBars width multiplier emptySpace barX barY 0 0 s with
  | (some r, s) => (r, s)
  | (none, s) => (OK, { s with UpdateLcd := true })

/-- The horizontal-edge loop of `LcdRect`: plot `(t, y1)` and `(t, y2)`
for `t = x1..x2` (responses discarded).  `x2 < 84` after the guard, so the
byte counter never wraps. -/
def rectLoopH (x2 y1 y2 : Nat) (mode : LcdPixelMode) (t : Nat) (s : LcdState) : LcdState :=
  if t ≤ x2 then
    let s := (LcdPixel t y1 mode s).2
    let s := (LcdPixel t y2 mode s).2
    rectLoopH x2 y1 y2 mode (t + 1) s
  else s
termination_by x2 + 1 - t

/-- The vertical-edge loop of `LcdRect`: plot `(x1, t)` and `(x2, t)` for
`t = y1..y2`. -/
def rectLoopV (x1 x2 y2 : Nat) (mode : LcdPixelMode) (t : Nat) (s : LcdState) : LcdState :=
  if t ≤ y2 then
    let s := (LcdPixel x1 t mode s).2
    let s := (LcdPixel x2 t mode s).2
    rectLoopV x1 x2 y2 mode (t + 1) s
  else s
termination_by y2 + 1 - t

/-- LcdRect: reject any off-display corner, draw the four edges only when
`x2 > x1` and `y2 > y1` (setting the change flag in that case), and
return `OK`. -/
def LcdRect (x1 y1 x2 y2 : Nat) (mode : LcdPixelMode) (s : LcdState) :
    LcdResp × LcdState :=
  if x1 ≥ LCD_X_RES ∨ x2 ≥ LCD_X_RES ∨ y1 ≥ LCD_Y_RES ∨ y2 ≥ LCD_Y_RES then
    (OUT_OF_BORDER, s)
  else if x2 > x1 ∧ y2 > y1 then
    let s := rectLoopH x2 y1 y2 mode x1 s
    let s := rectLoopV x1 x2 y2 mode y1 s
    (OK, { s with UpdateLcd := true })
  else (OK, s)

/-- A sequence of `LcdPixel` calls, applied for their state effect. -/
def applyPixels (ps : List (Nat × Nat × LcdPixelMode)) (s : LcdState) : LcdState :=
  ps.foldl (fun s p => (LcdPixel p.1 p.2.1 p.2.2 s).2) s

/-- The driver state right after `LcdInit` (which runs `LcdClear` followed
by `LcdUpdate`): all-zero cache, empty dirty range, cursor 0, flag down. -/
def startState : LcdState :=
  { LcdCache := fun _ => 0
    LoWaterMark := (LCD_CACHE_SIZE : Int) - 1
    HiWaterMark := 0
    LcdCacheIdx := 0
    UpdateLcd := false }

/-- An all-ones glyph table, used to exhibit concrete runs. -/
def font255 : Nat → Nat → Nat := fun _ _ => 255

/-! ### Helper lemmas -/

theorem if_lt_eq_min (a b : Int) : (if a < b then a else b) = min b a := by
  split <;> omega

theorem if_gt_eq_max (a b : Int) : (if a > b then a else b) = max b a := by
  split <;> omega

/-- Characterization of an in-bounds `LcdPixel` call: it succeeds, writes
`pixWrite` of the old byte at `pixIdx x y`, and absorbs that index into
the watermarks. -/
theorem LcdPixel_in (x y : Nat) (mode : LcdPixelMode) (s : LcdState)
    (hx : x < LCD_X_RES) (hy : y < LCD_Y_RES) :
    LcdPixel x y mode s =
      (OK, { s with
        LcdCache := writeCell s.LcdCache (pixIdx x y)
          (pixWrite mode (s.LcdCache (pixIdx x y)) (y % 8))
        LoWaterMark := min s.LoWaterMark (pixIdx x y)
        HiWaterMark := max s.HiWaterMark (pixIdx x y) }) := by
  have hoff : y - y / 8 * 8 = y % 8 := by omega
  have hneg : ¬ (x ≥ LCD_X_RES ∨ y ≥ LCD_Y_RES) := by
    simp [LCD_X_RES, LCD_Y_RES] at *
    omega
  simp only [LcdPixel, hneg, if_false, hoff, pixIdx,
    if_lt_eq_min, if_gt_eq_max]

theorem pixIdx_le (x y : Nat) (hx : x < LCD_X_RES) (hy : y < LCD_Y_RES) :
    pixIdx x y ≤ 503 := by
  simp [LCD_X_RES, LCD_Y_RES] at *
  unfold pixIdx
  omega

/-- Clamping is the identity on watermarks already in range. -/
theorem clampWaterMarks_id (s : LcdState)
    (h1 : 0 ≤ s.LoWaterMark) (h2 : s.LoWaterMark ≤ 503)
    (h3 : 0 ≤ s.HiWaterMark) (h4 : s.HiWaterMark ≤ 503) :
    clampWaterMarks s = s := by
  unfold clampWaterMarks
  rw [if_neg (by omega), if_neg (by simp only [LCD_CACHE_SIZE]; omega),
      if_neg (by omega), if_neg (by simp only [LCD_CACHE_SIZE]; omega)]

theorem foldl_min_le (l : List Int) (a : Int) : l.foldl min a ≤ a := by
  induction l generalizing a with
  | nil => simp
  | cons q l ih => exact le_trans (ih (min a q)) (min_le_left a q)

theorem le_foldl_min (l : List Int) (a c : Int) (ha : c ≤ a) (h : ∀ i ∈ l, c ≤ i) :
    c ≤ l.foldl min a := by
  induction l generalizing a with
  | nil => simpa
  | cons q l ih =>
    simp only [List.foldl_cons]
    exact ih (min a q) (le_min ha (h q (by simp))) (fun i hi => h i (by simp [hi]))

theorem foldl_min_le_mem (l : List Int) (a i : Int) (hi : i ∈ l) : l.foldl min a ≤ i := by
  induction l generalizing a with
  | nil => simp at hi
  | cons q l ih =>
    simp only [List.foldl_cons]
    rcases List.mem_cons.mp hi with h | h
    · subst h
      exact le_trans (foldl_min_le l (min a i)) (min_le_right a i)
    · exact ih (min a q) h

theorem le_foldl_max (l : List Int) (a : Int) : a ≤ l.foldl max a := by
  induction l generalizing a with
  | nil => simp
  | cons q l ih => exact le_trans (le_max_left a q) (ih (max a q))

theorem foldl_max_le (l : List Int) (a c : Int) (ha : a ≤ c) (h : ∀ i ∈ l, i ≤ c) :
    l.foldl max a ≤ c := by
  induction l generalizing a with
  | nil => simpa
  | cons q l ih =>
    simp only [List.foldl_cons]
    exact ih (max a q) (max_le ha (h q (by simp))) (fun i hi => h i (by simp [hi]))

theorem mem_le_foldl_max (l : List Int) (a i : Int) (hi : i ∈ l) : i ≤ l.foldl max a := by
  induction l generalizing a with
  | nil => simp at hi
  | cons q l ih =>
    simp only [List.foldl_cons]
    rcases List.mem_cons.mp hi with h | h
    · subst h
      exact le_trans (le_max_right a i) (le_foldl_max l (max a i))
    · exact ih (max a q) h

/-- The cache indices a pixel list writes. -/
def pixIndices (ps : List (Nat × Nat × LcdPixelMode)) : List Int :=
  ps.map (fun p => (pixIdx p.1 p.2.1 : Int))

/-- After a sequence of in-bounds pixel writes the watermarks are the
running `min`/`max` of the written indices over the starting values. -/
theorem applyPixels_waterMarks (ps : List (Nat × Nat × LcdPixelMode)) (s : LcdState)
    (h : ∀ p ∈ ps, p.1 < LCD_X_RES ∧ p.2.1 < LCD_Y_RES) :
    (applyPixels ps s).LoWaterMark = (pixIndices ps).foldl min s.LoWaterMark ∧
    (applyPixels ps s).HiWaterMark = (pixIndices ps).foldl max s.HiWaterMark := by
  induction ps generalizing s with
  | nil => simp [applyPixels, pixIndices]
  | cons p ps ih =>
    have hp := h p (by simp)
    have hs : applyPixels (p :: ps) s = applyPixels ps ((LcdPixel p.1 p.2.1 p.2.2 s).2) := by
      simp [applyPixels]
    rw [hs, LcdPixel_in p.1 p.2.1 p.2.2 s hp.1 hp.2]
    have := ih ((LcdPixel p.1 p.2.1 p.2.2 s).2) (fun q hq => h q (by simp [hq]))
    rw [LcdPixel_in p.1 p.2.1 p.2.2 s hp.1 hp.2] at this
    simpa [pixIndices] using this

theorem filter_data_range (f : Nat → Nat) (n : Nat) :
    (((List.range n).map (fun (j : Nat) => (f j, LCD_DATA))).filter
      (fun q => q.2 = LCD_DATA)).length = n := by
  induction n with
  | zero => simp
  | succ n ih => simp [List.range_succ, ih]

/- The loop early-return lemmas: a `some` result always carries a
non-`OK` response — the loops bubble up only failing `LcdPixel`
responses (the fuel-exhaustion case, unreachable for byte inputs, is
also non-`OK`). -/

theorem lineLoopX_some_ne (x2 : Nat) (sx sy dx dy : Int) (mode : LcdPixelMode) :
    ∀ fuel x1 y1 fr s r s2,
      lineLoopX x2 sx sy dx dy mode fuel x1 y1 fr s = (some r, s2) → r ≠ OK := by
  intro fuel
  induction fuel with
  | zero =>
    intro x1 y1 fr s r s2 h
    simp only [lineLoopX] at h
    injection h with h1 h2
    injection h1 with h1
    subst h1
    decide
  | succ n ih =>
    intro x1 y1 fr s r s2 h
    simp only [lineLoopX] at h
    split at h
    · split at h <;> split at h <;>
        first
          | (rename_i hcond
             injection h with h1 h2
             injection h1 with h1
             subst h1
             exact hcond)
          | exact ih _ _ _ _ _ _ h
    · simp at h

theorem lineLoopY_some_ne (y2 : Nat) (sx sy dx dy : Int) (mode : LcdPixelMode) :
    ∀ fuel x1 y1 fr s r s2,
      lineLoopY y2 sx sy dx dy mode fuel x1 y1 fr s = (some r, s2) → r ≠ OK := by
  intro fuel
  induction fuel with
  | zero =>
    intro x1 y1 fr s r s2 h
    simp only [lineLoopY] at h
    injection h with h1 h2
    injection h1 with h1
    subst h1
    decide
  | succ n ih =>
    intro x1 y1 fr s r s2 h
    simp only [lineLoopY] at h
    split at h
    · split at h <;> split at h <;>
        first
          | (rename_i hcond
             injection h with h1 h2
             injection h1 with h1
             subst h1
             exact hcond)
          | exact ih _ _ _ _ _ _ h
    · simp at h

theorem barInner_some_ne (baseX width y : Nat) (mode : LcdPixelMode) :
    ∀ n x s r s2, baseX + width - x ≤ n →
      barInner baseX width y mode x s = (some r, s2) → r ≠ OK := by
  intro n
  induction n with
  | zero =>
    intro x s r s2 hn h
    rw [barInner] at h
    rw [if_neg (by omega)] at h
    simp at h
  | succ n ih =>
    intro x s r s2 hn h
    rw [barInner] at h
    split at h
    · split at h
      split at h
      · rename_i hcond
        injection h with h1 h2
        injection h1 with h1
        subst h1
        exact hcond
      · exact ih (x + 1) _ _ _ (by omega) h
    · simp at h

theorem barOuter_some_ne (baseX width baseY : Nat) (mode : LcdPixelMode) :
    ∀ n y s r s2, baseY + 1 - y ≤ n →
      barOuter baseX width baseY mode y s = (some r, s2) → r ≠ OK := by
  intro n
  induction n with
  | zero =>
    intro y s r s2 hn h
    rw [barOuter] at h
    rw [if_neg (by omega)] at h
    simp at h
  | succ n ih =>
    intro y s r s2 hn h
    rw [barOuter] at h
    split at h
    · split at h
      · rename_i heq
        injection h with h1 h2
        injection h1 with h1
        subst h1
        exact barInner_some_ne baseX width y mode (baseX + width) _ _ _ _ (by omega) heq
      · exact ih (y + 1) _ _ _ (by omega) h
    · simp at h

theorem barsLoop_some_ne (data : Nat → Nat) (numbBars width multiplier es bx bz : Nat) :
    ∀ n b tmpIdx s r s2, numbBars - b ≤ n →
      barsLoop data numbBars width multiplier es bx bz b tmpIdx s = (some r, s2) →
      r = OUT_OF_BORDER := by
  intro n
  induction n with
  | zero =>
    intro b tmpIdx s r s2 hn h
    rw [barsLoop] at h
    rw [if_neg (by omega)] at h
    simp at h
  | succ n ih =>
    intro b tmpIdx s r s2 hn h
    rw [barsLoop] at h
    split at h
    · split at h
      · injection h with h1 h2
        injection h1 with h1
        subst h1
        rfl
      · split at h
        split at h
        · injection h with h1 h2
          injection h1 with h1
          subst h1
          rfl
        · exact ih _ _ _ _ _ (by omega) h
    · simp at h

/- Unfolding lemmas for the circle loop, and the double-XOR cache
identity of `LcdPixel`. -/

theorem circleLoop_exit (x y : Nat) (mode : LcdPixelMode) (fuel : Nat) (xc yc p : Int)
    (s : LcdState) (h : ¬ xc ≤ yc) :
    circleLoop x y mode (fuel + 1) xc yc p s = s := by
  rw [circleLoop, if_neg h]

theorem circleLoop_step (x y : Nat) (mode : LcdPixelMode) (fuel : Nat) (xc yc p : Int)
    (s : LcdState) (h : xc ≤ yc) (hp : ¬ p < 0) :
    circleLoop x y mode (fuel + 1) xc yc p s =
      circleLoop x y mode fuel (sc (xc + 1)) (sc (yc - 1)) (sc (p + 4 * (xc - yc) + 10))
        ((LcdPixel (byteOf (x - yc)) (byteOf (y - xc)) mode
         ((LcdPixel (byteOf (x - yc)) (byteOf (y + xc)) mode
         ((LcdPixel (byteOf (x + yc)) (byteOf (y - xc)) mode
         ((LcdPixel (byteOf (x + yc)) (byteOf (y + xc)) mode
         ((LcdPixel (byteOf (x - xc)) (byteOf (y - yc)) mode
         ((LcdPixel (byteOf (x - xc)) (byteOf (y + yc)) mode
         ((LcdPixel (byteOf (x + xc)) (byteOf (y - yc)) mode
         ((LcdPixel (byteOf (x + xc)) (byteOf (y + yc)) mode s).2)).2)).2)).2)).2)).2)).2)).2) := by
  rw [circleLoop, if_pos h, if_neg hp]

theorem pixXor_twice_cache (x y : Nat) (hx : x < LCD_X_RES) (hy : y < LCD_Y_RES)
    (s : LcdState) (i : Int) :
    ((LcdPixel x y PIXEL_XOR ((LcdPixel x y PIXEL_XOR s).2)).2).LcdCache i
      = s.LcdCache i := by
  rw [LcdPixel_in x y PIXEL_XOR s hx hy]
  rw [LcdPixel_in x y PIXEL_XOR _ hx hy]
  simp only [writeCell]
  by_cases hik : i = ((pixIdx x y : Nat) : Int)
  · simp [hik, pixWrite, Nat.xor_cancel_right]
  · simp [hik]

/-! ### Claim theorems -/

/-- C2: for in-bounds (x, y), every `LcdPixel` call returns `OK`, absorbs
the computed index into the dirty range as `min`/`max`, and changes no
other cache byte; `PIXEL_ON` leaves bit `y % 8` of cache byte
`(y/8)*84 + x` set, `PIXEL_OFF` leaves it clear, and two successive
`PIXEL_XOR` calls restore the original byte. -/
theorem claim_C2_pixel_semantics (x y : Nat) (s : LcdState)
    (hx : x < LCD_X_RES) (hy : y < LCD_Y_RES) :
    (∀ mode,
      (LcdPixel x y mode s).1 = OK ∧
      ((LcdPixel x y mode s).2).LoWaterMark = min s.LoWaterMark (pixIdx x y) ∧
      ((LcdPixel x y mode s).2).HiWaterMark = max s.HiWaterMark (pixIdx x y) ∧
      (∀ j : Int, j ≠ (pixIdx x y : Int) →
        ((LcdPixel x y mode s).2).LcdCache j = s.LcdCache j)) ∧
    Nat.testBit (((LcdPixel x y PIXEL_ON s).2).LcdCache (pixIdx x y)) (y % 8) = true ∧
    Nat.testBit (((LcdPixel x y PIXEL_OFF s).2).LcdCache (pixIdx x y)) (y % 8) = false ∧
    ((LcdPixel x y PIXEL_XOR ((LcdPixel x y PIXEL_XOR s).2)).2).LcdCache (pixIdx x y)
      = s.LcdCache (pixIdx x y) := by
  have hoff : y % 8 < 8 := Nat.mod_lt _ (by norm_num)
  refine ⟨fun mode => ?_, ?_, ?_, ?_⟩
  · rw [LcdPixel_in x y mode s hx hy]
    refine ⟨rfl, rfl, rfl, fun j hj => ?_⟩
    simp [writeCell, hj]
  · rw [LcdPixel_in x y PIXEL_ON s hx hy]
    simp [writeCell, pixWrite, Nat.testBit_or, Nat.testBit_shiftLeft]
  · rw [LcdPixel_in x y PIXEL_OFF s hx hy]
    simp only [writeCell, pixWrite, if_true, eq_self_iff_true]
    simp [Nat.testBit_and, Nat.testBit_xor, Nat.testBit_shiftLeft]
    intro h2
    have h255 : (255 : Nat) = 2 ^ 8 - 1 := by norm_num
    rw [h255, Nat.testBit_two_pow_sub_one]
    simp [hoff]
  · rw [LcdPixel_in x y PIXEL_XOR s hx hy]
    simp only [LcdPixel_in x y PIXEL_XOR _ hx hy]
    simp [writeCell, pixWrite, Nat.xor_cancel_right]

/-- C2 witness: a concrete in-bounds pixel at (10, 10). -/
theorem claim_C2_witness :
    Nat.testBit (((LcdPixel 10 10 PIXEL_ON startState).2).LcdCache (pixIdx 10 10)) (10 % 8)
      = true ∧
    ((LcdPixel 10 10 PIXEL_ON startState).2).LoWaterMark
      = min startState.LoWaterMark (pixIdx 10 10) :=
  ⟨(claim_C2_pixel_semantics 10 10 startState (by decide) (by decide)).2.1,
   ((claim_C2_pixel_semantics 10 10 startState (by decide) (by decide)).1 PIXEL_ON).2.1⟩

/-- C3: an out-of-range `LcdPixel` call returns `OUT_OF_BORDER` and
returns the state literally unchanged (cache, watermarks, cursor and
flag). -/
theorem claim_C3_pixel_rejected (x y : Nat) (mode : LcdPixelMode) (s : LcdState)
    (h : x ≥ LCD_X_RES ∨ y ≥ LCD_Y_RES) :
    LcdPixel x y mode s = (OUT_OF_BORDER, s) := by
  unfold LcdPixel
  rw [if_pos h]

/-- C3 witness: the concrete out-of-range pixel (84, 0). -/
theorem claim_C3_witness :
    ((84 ≥ LCD_X_RES ∨ (0 : Nat) ≥ LCD_Y_RES) ∧
      LcdPixel 84 0 PIXEL_ON startState = (OUT_OF_BORDER, startState)) :=
  ⟨Or.inl (by decide), claim_C3_pixel_rejected 84 0 PIXEL_ON startState (Or.inl (by decide))⟩

/-- C4: from the empty dirty range, one successful pixel write at index
`k = pixIdx x y` followed by `LcdUpdate` transmits exactly the addressing
commands `0x80 | k mod 84`, `0x40 | k div 84` and the single data byte at
`k`; and for any nonempty sequence of in-bounds pixel writes the number of
transmitted data bytes equals the size of the minimal bounding range of
the written indices (their running `max` minus their running `min`, plus
one — `foldl max 0` and `foldl min 503` are exactly that maximum and
minimum, every index lying in `[0, 503]`). -/
theorem claim_C4_tightness :
    (∀ x y mode (s : LcdState), x < LCD_X_RES → y < LCD_Y_RES →
      s.LoWaterMark = (LCD_CACHE_SIZE : Int) - 1 → s.HiWaterMark = 0 →
      (LcdUpdate ((LcdPixel x y mode s).2)).1 =
        [(0x80 ||| (((pixIdx x y : Int)) % 84).toNat, LCD_CMD),
         (0x40 ||| (((pixIdx x y : Int)) / 84).toNat, LCD_CMD),
         (((LcdPixel x y mode s).2).LcdCache (pixIdx x y), LCD_DATA)]) ∧
    (∀ ps (s : LcdState), ps ≠ [] →
      (∀ p ∈ ps, p.1 < LCD_X_RES ∧ p.2.1 < LCD_Y_RES) →
      s.LoWaterMark = (LCD_CACHE_SIZE : Int) - 1 → s.HiWaterMark = 0 →
      (((LcdUpdate (applyPixels ps s)).1.filter (fun q => q.2 = LCD_DATA)).length : Int)
        = (pixIndices ps).foldl max 0 + 1
          - (pixIndices ps).foldl min ((LCD_CACHE_SIZE : Int) - 1)) := by
  have h503 : ((LCD_CACHE_SIZE : Int) - 1) = 503 := by simp [LCD_CACHE_SIZE]
  constructor
  · intro x y mode s hx hy hlo hhi
    have hk : (pixIdx x y : Int) ≤ 503 := by exact_mod_cast pixIdx_le x y hx hy
    have hk0 : (0 : Int) ≤ (pixIdx x y : Int) := Int.ofNat_nonneg _
    rw [LcdPixel_in x y mode s hx hy]
    have hmin : min s.LoWaterMark ((pixIdx x y : Nat) : Int) = (pixIdx x y : Int) := by
      rw [hlo, h503]; omega
    have hmax : max s.HiWaterMark ((pixIdx x y : Nat) : Int) = (pixIdx x y : Int) := by
      rw [hhi]; omega
    simp only [LcdUpdate]
    rw [clampWaterMarks_id _ (by simp [hmin, hk0]) (by simp [hmin, hk])
        (by simp [hmax, hk0]) (by simp [hmax, hk])]
    simp only [hmin, hmax]
    have hr1 : ((pixIdx x y : Int) + 1 - (pixIdx x y : Int)).toNat = 1 := by omega
    rw [hr1]
    simp [List.range_succ]
  · intro ps s hne h hlo hhi
    obtain ⟨hLo, hHi⟩ := applyPixels_waterMarks ps s h
    have hbound : ∀ i ∈ pixIndices ps, 0 ≤ i ∧ i ≤ 503 := by
      intro i hi
      obtain ⟨p, hp, rfl⟩ := List.mem_map.mp hi
      have := pixIdx_le p.1 p.2.1 (h p hp).1 (h p hp).2
      exact ⟨Int.ofNat_nonneg _, by exact_mod_cast this⟩
    rw [hlo, h503] at hLo
    rw [hhi] at hHi
    have h1 : 0 ≤ (pixIndices ps).foldl min 503 :=
      le_foldl_min _ _ _ (by norm_num) (fun i hi => (hbound i hi).1)
    have h2 : (pixIndices ps).foldl min 503 ≤ 503 := foldl_min_le _ _
    have h3 : 0 ≤ (pixIndices ps).foldl max 0 := le_foldl_max _ _
    have h4 : (pixIndices ps).foldl max 0 ≤ 503 :=
      foldl_max_le _ _ _ (by norm_num) (fun i hi => (hbound i hi).2)
    have h5 : (pixIndices ps).foldl min 503 ≤ (pixIndices ps).foldl max 0 := by
      obtain ⟨p, hp⟩ := List.exists_mem_of_ne_nil ps hne
      have hmem : (pixIdx p.1 p.2.1 : Int) ∈ pixIndices ps := List.mem_map_of_mem _ hp
      exact le_trans (foldl_min_le_mem _ _ _ hmem) (mem_le_foldl_max _ _ _ hmem)
    simp only [LcdUpdate]
    rw [clampWaterMarks_id _ (by rw [hLo]; omega) (by rw [hLo]; omega)
        (by rw [hHi]; omega) (by rw [hHi]; omega)]
    rw [hLo, hHi, h503]
    simp only [List.filter_append, List.length_append]
    rw [filter_data_range
      (fun j => (applyPixels ps s).LcdCache ((pixIndices ps).foldl min 503 + (j : Int))) _]
    have hcmds : ([((0x80 : Nat) ||| (((pixIndices ps).foldl min 503) % 84).toNat, LCD_CMD),
             ((0x40 : Nat) ||| (((pixIndices ps).foldl min 503) / 84).toNat, LCD_CMD)].filter
              (fun q => q.2 = LCD_DATA)).length = 0 := by
      simp [List.filter]
    rw [hcmds]
    omega

/-- C4 witness: a pixel at (10, 10) (cache index 94) flushed from the
post-init state. -/
theorem claim_C4_witness :
    (LcdUpdate ((LcdPixel 10 10 PIXEL_ON startState).2)).1 =
      [(0x80 ||| (((pixIdx 10 10 : Int)) % 84).toNat, LCD_CMD),
       (0x40 ||| (((pixIdx 10 10 : Int)) / 84).toNat, LCD_CMD),
       (((LcdPixel 10 10 PIXEL_ON startState).2).LcdCache (pixIdx 10 10), LCD_DATA)] :=
  claim_C4_tightness.1 10 10 PIXEL_ON startState (by decide) (by decide) rfl rfl

/-- C5: every `LcdUpdate` call resets the dirty range to the empty
sentinel (503, 0) and clears the change flag; the number of data bytes
any call transmits is the clamped range size, and a second call right
after a first transmits zero data bytes. -/
theorem claim_C5_flush_reset (s : LcdState) :
    ((LcdUpdate s).2).LoWaterMark = (LCD_CACHE_SIZE : Int) - 1 ∧
    ((LcdUpdate s).2).HiWaterMark = 0 ∧
    ((LcdUpdate s).2).UpdateLcd = false ∧
    ((LcdUpdate s).1.filter (fun q => q.2 = LCD_DATA)).length
      = ((clampWaterMarks s).HiWaterMark + 1 - (clampWaterMarks s).LoWaterMark).toNat ∧
    ((LcdUpdate ((LcdUpdate s).2)).1.filter (fun q => q.2 = LCD_DATA)) = [] := by
  refine ⟨rfl, rfl, rfl, ?_, ?_⟩
  · simp only [LcdUpdate, List.filter_append, List.length_append]
    rw [filter_data_range
      (fun j => (clampWaterMarks s).LcdCache ((clampWaterMarks s).LoWaterMark + (j : Int))) _]
    simp [List.filter]
  · simp only [LcdUpdate]
    rw [clampWaterMarks_id _ (by simp [LCD_CACHE_SIZE]) (by simp [LCD_CACHE_SIZE])
      (by simp) (by simp)]
    have hz : ((0 : Int) + 1 - ((LCD_CACHE_SIZE : Int) - 1)).toNat = 0 := by
      simp [LCD_CACHE_SIZE]
    rw [hz]
    simp [List.filter]

/-- C5 witness: flushing twice after a full clear — the second flush
carries no data bytes. -/
theorem claim_C5_witness :
    ((LcdUpdate ((LcdUpdate (LcdClear startState)).2)).1.filter
      (fun q => q.2 = LCD_DATA)) = [] :=
  (claim_C5_flush_reset (LcdClear startState)).2.2.2.2

/-- C7: with the cursor at index 0 (from `LcdGotoXYFont 0 0`), a FONT_1X
`LcdChr` of the character `A` (0x41, remapped to glyph row 33) returns
`OK`, writes the five glyph columns left-shifted by one bit at cache
indices 0–4 and a zero spacing byte at index 5, leaves every other cache
byte unchanged, and advances the cursor to 6. -/
theorem claim_C7_putchar_1x (font : Nat → Nat → Nat) (s : LcdState) :
    (LcdChr font FONT_1X 0x41 ((LcdGotoXYFont 0 0 s).2)).1 = OK ∧
    ((LcdChr font FONT_1X 0x41 ((LcdGotoXYFont 0 0 s).2)).2).LcdCacheIdx = 6 ∧
    (∀ i : Nat, i < 5 →
      ((LcdChr font FONT_1X 0x41 ((LcdGotoXYFont 0 0 s).2)).2).LcdCache (i : Int)
        = (fontByte font 33 i <<< 1) % 256) ∧
    ((LcdChr font FONT_1X 0x41 ((LcdGotoXYFont 0 0 s).2)).2).LcdCache 5 = 0 ∧
    (∀ j : Int, j < 0 ∨ 5 < j →
      ((LcdChr font FONT_1X 0x41 ((LcdGotoXYFont 0 0 s).2)).2).LcdCache j
        = s.LcdCache j) := by
  have hgoto : (LcdGotoXYFont 0 0 s).2 = { s with LcdCacheIdx := 0 } := by
    simp [LcdGotoXYFont]
  have hremap : remapChar 0x41 = 33 := by decide
  have hmain : LcdChr font FONT_1X 0x41 { s with LcdCacheIdx := 0 } =
      (OK, { s with
        LcdCache := writeCell (writeCell (writeCell (writeCell (writeCell
            (writeCell s.LcdCache 0 (fontByte font 33 0 <<< 1 % 256)) 1
            (fontByte font 33 1 <<< 1 % 256)) 2 (fontByte font 33 2 <<< 1 % 256))
            3 (fontByte font 33 3 <<< 1 % 256)) 4 (fontByte font 33 4 <<< 1 % 256)) 5 0
        LoWaterMark := if (0 : Int) < s.LoWaterMark then 0 else s.LoWaterMark
        HiWaterMark := if (5 : Int) > s.HiWaterMark then 5 else s.HiWaterMark
        LcdCacheIdx := 6 }) := by
    simp only [LcdChr, hremap, show List.range 5 = [0, 1, 2, 3, 4] from rfl,
      List.foldl_cons, List.foldl_nil, lcdChrTail]
    norm_num [LCD_CACHE_SIZE]
  rw [hgoto, hmain]
  refine ⟨rfl, rfl, fun i hi => ?_, ?_, fun j hj => ?_⟩
  · interval_cases i <;> norm_num [writeCell]
  · norm_num [writeCell]
  · simp only [writeCell]
    rw [if_neg (by omega), if_neg (by omega), if_neg (by omega), if_neg (by omega),
        if_neg (by omega), if_neg (by omega)]

/-- C7 witness: the concrete all-ones glyph table at the post-init
state. -/
theorem claim_C7_witness :
    (LcdChr font255 FONT_1X 0x41 ((LcdGotoXYFont 0 0 startState).2)).1 = OK ∧
    ((LcdChr font255 FONT_1X 0x41 ((LcdGotoXYFont 0 0 startState).2)).2).LcdCacheIdx = 6 :=
  ⟨(claim_C7_putchar_1x font255 startState).1, (claim_C7_putchar_1x font255 startState).2.1⟩

/-- C9: a FONT_2X `LcdChr` with the cursor in the top text row (index
< 84) returns `OUT_OF_BORDER` without touching the cache, the high
watermark, the cursor or the flag — but only after `LoWaterMark` has been
lowered to `min (min LoWaterMark cursor) (cursor - 84)`, a negative
value, which the clamping step at the head of `LcdUpdate` then forces
to 0. -/
theorem claim_C9_font2x_top_row (font : Nat → Nat → Nat) (ch : Nat) (s : LcdState)
    (h : s.LcdCacheIdx < 84) :
    (LcdChr font FONT_2X ch s).1 = OUT_OF_BORDER ∧
    (∀ i, ((LcdChr font FONT_2X ch s).2).LcdCache i = s.LcdCache i) ∧
    ((LcdChr font FONT_2X ch s).2).LoWaterMark
      = min (min s.LoWaterMark s.LcdCacheIdx) (s.LcdCacheIdx - 84) ∧
    ((LcdChr font FONT_2X ch s).2).LoWaterMark < 0 ∧
    ((LcdChr font FONT_2X ch s).2).HiWaterMark = s.HiWaterMark ∧
    ((LcdChr font FONT_2X ch s).2).LcdCacheIdx = s.LcdCacheIdx ∧
    ((LcdChr font FONT_2X ch s).2).UpdateLcd = s.UpdateLcd ∧
    (clampWaterMarks ((LcdChr font FONT_2X ch s).2)).LoWaterMark = 0 := by
  have hneg : s.LcdCacheIdx - 84 < 0 := by omega
  simp only [LcdChr]
  rw [if_pos hneg]
  refine ⟨rfl, fun i => rfl, ?_, ?_, rfl, rfl, rfl, ?_⟩
  · simp only [if_lt_eq_min]
  · simp only [if_lt_eq_min]
    omega
  · simp only [clampWaterMarks, if_lt_eq_min]
    rw [if_pos (by omega)]

/-- C9 witness: cursor index 12 (cell (2,0)) with the all-ones table. -/
theorem claim_C9_witness :
    (LcdChr font255 FONT_2X 65 ((LcdGotoXYFont 2 0 startState).2)).1 = OUT_OF_BORDER ∧
    (clampWaterMarks
      ((LcdChr font255 FONT_2X 65 ((LcdGotoXYFont 2 0 startState).2)).2)).LoWaterMark = 0 :=
  ⟨(claim_C9_font2x_top_row font255 65 _ (by decide)).1,
   (claim_C9_font2x_top_row font255 65 _ (by decide)).2.2.2.2.2.2.2⟩

/-- C1 (the failing run): with the cursor placed at 498 by
`LcdGotoXYFont 13 5` — the bottom-right character cell — a FONT_2X
`LcdChr` runs to `OK` and writes cache indices 504..507, beyond the last
valid cache index 503: model cells 504 and 507 change from 0 to 255 under
the all-ones glyph table.  In the C code this is an out-of-bounds array
write, refuting the bounds invariant for this reachable cursor. -/
theorem claim_C1_font2x_overflow :
    ((LcdGotoXYFont 13 5 startState).2).LcdCacheIdx = 498 ∧
    (LcdChr font255 FONT_2X 65 ((LcdGotoXYFont 13 5 startState).2)).1 = OK ∧
    ((LcdChr font255 FONT_2X 65 ((LcdGotoXYFont 13 5 startState).2)).2).LcdCache 507 = 255 ∧
    ((LcdChr font255 FONT_2X 65 ((LcdGotoXYFont 13 5 startState).2)).2).LcdCache 504 = 255 ∧
    startState.LcdCache 507 = 0 := by decide

/-- C6 counterexample: a successful `LcdPixel` call that draws a pixel
(cache byte 0 changes) but leaves `UpdateLcd` FALSE — `LcdPixel` never
touches the flag, refuting the claim as stated. -/
theorem claim_C6_counterexample :
    (LcdPixel 0 0 PIXEL_ON startState).1 = OK ∧
    ((LcdPixel 0 0 PIXEL_ON startState).2).LcdCache 0 ≠ startState.LcdCache 0 ∧
    ((LcdPixel 0 0 PIXEL_ON startState).2).UpdateLcd = false := by decide

/-- C6 amended: `LcdLine`, `LcdCircle`, `LcdSingleBar` and `LcdBars` set
`UpdateLcd = TRUE` on every `OK` return, and `LcdRect` does so on every
`OK` return that drew anything (`x1 < x2` and `y1 < y2`); `LcdPixel`
itself never modifies the flag. -/
theorem claim_C6_changed_flag_amended :
    (∀ x y mode (s : LcdState), ((LcdPixel x y mode s).2).UpdateLcd = s.UpdateLcd) ∧
    (∀ x1 y1 x2 y2 mode (s : LcdState), (LcdLine x1 y1 x2 y2 mode s).1 = OK →
      ((LcdLine x1 y1 x2 y2 mode s).2).UpdateLcd = true) ∧
    (∀ x y radius mode (s : LcdState), (LcdCircle x y radius mode s).1 = OK →
      ((LcdCircle x y radius mode s).2).UpdateLcd = true) ∧
    (∀ baseX baseY height width mode (s : LcdState),
      (LcdSingleBar baseX baseY height width mode s).1 = OK →
      ((LcdSingleBar baseX baseY height width mode s).2).UpdateLcd = true) ∧
    (∀ data numbBars width multiplier es bx bz (s : LcdState),
      (LcdBars data numbBars width multiplier es bx bz s).1 = OK →
      ((LcdBars data numbBars width multiplier es bx bz s).2).UpdateLcd = true) ∧
    (∀ x1 y1 x2 y2 mode (s : LcdState), (LcdRect x1 y1 x2 y2 mode s).1 = OK →
      x1 < x2 → y1 < y2 → ((LcdRect x1 y1 x2 y2 mode s).2).UpdateLcd = true) := by
  refine ⟨?_, ?_, ?_, ?_, ?_, ?_⟩
  · intro x y mode s
    unfold LcdPixel
    split <;> rfl
  · intro x1 y1 x2 y2 mode s h
    rcases hq : LcdLine x1 y1 x2 y2 mode s with ⟨r0, s0⟩
    rw [hq] at h
    replace h : r0 = OK := h
    change s0.UpdateLcd = true
    simp only [LcdLine] at hq
    split at hq
    · rename_i hcond
      rw [hq] at hcond
      exact absurd h hcond
    · split at hq
      · rename_i heq
        injection hq with hq1 hq2
        subst hq1
        repeat' split at heq
        all_goals
          first
            | exact absurd h (lineLoopX_some_ne _ _ _ _ _ _ _ _ _ _ _ _ _ heq)
            | exact absurd h (lineLoopY_some_ne _ _ _ _ _ _ _ _ _ _ _ _ _ heq)
      · injection hq with hq1 hq2
        subst hq2
        rfl
  · intro x y radius mode s h
    rcases hq : LcdCircle x y radius mode s with ⟨r0, s0⟩
    rw [hq] at h
    replace h : r0 = OK := h
    change s0.UpdateLcd = true
    simp only [LcdCircle] at hq
    split at hq
    · injection hq with hq1 hq2
      subst hq1
      simp at h
    · injection hq with hq1 hq2
      subst hq2
      rfl
  · intro baseX baseY height width mode s h
    rcases hq : LcdSingleBar baseX baseY height width mode s with ⟨r0, s0⟩
    rw [hq] at h
    replace h : r0 = OK := h
    change s0.UpdateLcd = true
    simp only [LcdSingleBar] at hq
    split at hq
    · injection hq with hq1 hq2
      subst hq1
      simp at h
    · split at hq
      · rename_i heq
        injection hq with hq1 hq2
        subst hq1
        exact absurd h (barOuter_some_ne _ _ _ _ (baseY + 1) _ _ _ _ (by omega) heq)
      · injection hq with hq1 hq2
        subst hq2
        rfl
  · intro data numbBars width multiplier es bx bz s h
    rcases hq : LcdBars data numbBars width multiplier es bx bz s with ⟨r0, s0⟩
    rw [hq] at h
    replace h : r0 = OK := h
    change s0.UpdateLcd = true
    simp only [LcdBars] at hq
    split at hq
    · rename_i heq
      injection hq with hq1 hq2
      subst hq1
      have hb := barsLoop_some_ne data numbBars width multiplier es bx bz
        numbBars _ _ _ _ _ (by omega) heq
      rw [hb] at h
      simp at h
    · injection hq with hq1 hq2
      subst hq2
      rfl
  · intro x1 y1 x2 y2 mode s h hx hy
    rcases hq : LcdRect x1 y1 x2 y2 mode s with ⟨r0, s0⟩
    rw [hq] at h
    replace h : r0 = OK := h
    change s0.UpdateLcd = true
    simp only [LcdRect] at hq
    split at hq
    · injection hq with hq1 hq2
      subst hq1
      simp at h
    · split at hq
      · injection hq with hq1 hq2
        subst hq2
        rfl
      · rename_i hcond
        exact absurd ⟨hx, hy⟩ hcond

/-- C6 witness: a concrete successful line sets the flag. -/
theorem claim_C6_witness :
    ((LcdLine 0 0 3 0 PIXEL_ON startState).2).UpdateLcd = true :=
  claim_C6_changed_flag_amended.2.1 0 0 3 0 PIXEL_ON startState (by decide)


/-- C8: `LcdCircle 10 10 0 PIXEL_ON` from the cleared post-init cache
returns `OK` and sets exactly the single pixel (10, 10): bit `10 % 8` of
cache byte `pixIdx 10 10 = 94` is 1 and every cache byte other than 94 is
0 (byte 94 is exactly `4 = 1 <<< 2`, so no other pixel bit is set) — the
eight symmetric radius-0 plots all coincide at the center and the loop
runs exactly once. -/
theorem claim_C8_circle_radius0 :
    (LcdCircle 10 10 0 PIXEL_ON startState).1 = OK ∧
    Nat.testBit (((LcdCircle 10 10 0 PIXEL_ON startState).2).LcdCache (pixIdx 10 10))
      (10 % 8) = true ∧
    ∀ i : Int, ((LcdCircle 10 10 0 PIXEL_ON startState).2).LcdCache i
      = if i = (pixIdx 10 10 : Int) then 4 else 0 := by
  refine ⟨by decide, by decide, fun i => ?_⟩
  by_cases hi : i = ((pixIdx 10 10 : Nat) : Int)
  · rw [hi, if_pos rfl]
    decide
  · rw [if_neg hi]
    unfold LcdCircle
    rw [if_neg (by decide)]
    rw [show sc (((0 : Nat) : Int)) = 0 by decide,
        show sc (3 - 2 * ((0 : Nat) : Int)) = 3 by decide]
    rw [show (256 : Nat) = 255 + 1 from rfl]
    rw [circleLoop_step 10 10 PIXEL_ON 255 0 0 3 startState (le_refl 0) (by norm_num)]
    rw [show sc ((0 : Int) + 1) = 1 by decide, show sc ((0 : Int) - 1) = -1 by decide,
        show sc ((3 : Int) + 4 * (0 - 0) + 10) = 13 by decide]
    rw [show (255 : Nat) = 254 + 1 from rfl]
    rw [circleLoop_exit 10 10 PIXEL_ON 254 1 (-1) 13 _ (by decide)]
    rw [show byteOf ((10 : Nat) + (0 : Int)) = 10 by decide,
        show byteOf ((10 : Nat) - (0 : Int)) = 10 by decide]
    rw [LcdPixel_in 10 10 PIXEL_ON _ (by decide) (by decide),
        LcdPixel_in 10 10 PIXEL_ON _ (by decide) (by decide),
        LcdPixel_in 10 10 PIXEL_ON _ (by decide) (by decide),
        LcdPixel_in 10 10 PIXEL_ON _ (by decide) (by decide),
        LcdPixel_in 10 10 PIXEL_ON _ (by decide) (by decide),
        LcdPixel_in 10 10 PIXEL_ON _ (by decide) (by decide),
        LcdPixel_in 10 10 PIXEL_ON _ (by decide) (by decide),
        LcdPixel_in 10 10 PIXEL_ON _ (by decide) (by decide)]
    simp only [writeCell, hi, if_false, startState]

/-- C10: for any in-bounds center, a radius-0 `LcdCircle` in `PIXEL_XOR`
mode returns `OK` and leaves every framebuffer cache byte unchanged: the
center pixel is toggled by all eight symmetric plots of the single loop
iteration, an even number of XORs. -/
theorem claim_C10_circle_xor_identity (x y : Nat) (s : LcdState)
    (hx : x < LCD_X_RES) (hy : y < LCD_Y_RES) :
    (LcdCircle x y 0 PIXEL_XOR s).1 = OK ∧
    ∀ i : Int, ((LcdCircle x y 0 PIXEL_XOR s).2).LcdCache i = s.LcdCache i := by
  have hx84 : x < 84 := by simpa [LCD_X_RES] using hx
  have hy48 : y < 48 := by simpa [LCD_Y_RES] using hy
  have hbx1 : byteOf ((x : Int) + 0) = x := by unfold byteOf; omega
  have hbx2 : byteOf ((x : Int) - 0) = x := by unfold byteOf; omega
  have hby1 : byteOf ((y : Int) + 0) = y := by unfold byteOf; omega
  have hby2 : byteOf ((y : Int) - 0) = y := by unfold byteOf; omega
  unfold LcdCircle
  rw [if_neg (by simp [LCD_X_RES, LCD_Y_RES]; omega)]
  rw [show sc (((0 : Nat) : Int)) = 0 by decide,
      show sc (3 - 2 * ((0 : Nat) : Int)) = 3 by decide]
  rw [show (256 : Nat) = 255 + 1 from rfl]
  rw [circleLoop_step x y PIXEL_XOR 255 0 0 3 s (le_refl 0) (by norm_num)]
  rw [show sc ((0 : Int) + 1) = 1 by decide, show sc ((0 : Int) - 1) = -1 by decide,
      show sc ((3 : Int) + 4 * (0 - 0) + 10) = 13 by decide]
  rw [show (255 : Nat) = 254 + 1 from rfl]
  rw [circleLoop_exit x y PIXEL_XOR 254 1 (-1) 13 _ (by decide)]
  rw [hbx1, hbx2, hby1, hby2]
  refine ⟨rfl, fun i => ?_⟩
  show ((LcdPixel x y PIXEL_XOR _).2).LcdCache i = s.LcdCache i
  rw [pixXor_twice_cache x y hx hy _ i, pixXor_twice_cache x y hx hy _ i,
      pixXor_twice_cache x y hx hy _ i, pixXor_twice_cache x y hx hy _ i]

/-- C10 witness: the concrete center (10, 10) on the post-init state. -/
theorem claim_C10_witness :
    (LcdCircle 10 10 0 PIXEL_XOR startState).1 = OK ∧
    ((LcdCircle 10 10 0 PIXEL_XOR startState).2).LcdCache 94 = startState.LcdCache 94 :=
  ⟨(claim_C10_circle_xor_identity 10 10 startState (by decide) (by decide)).1,
   (claim_C10_circle_xor_identity 10 10 startState (by decide) (by decide)).2 94⟩


end N3310
